import Mathlib

/-!
Verification of `dataprofiler/profilers/categorical_column_profile.py`
(class `CategoricalColumn`).

A Python dict mapping category values to counts is embedded as `PyDict`:
a finite key set together with a value function; `PyDict.get` is the
get-or-zero accessor (`d[cat] if cat in d else 0`).  Python float
arithmetic on counts is modelled exactly over `ℚ`.  The helpers that
live outside this module (`utils.add_nested_dictionaries`, the
`utils.find_diff_of_*` family, the base-profiler sample-size
aggregation) are modelled from the specification and marked as such in
their doc comments.
-/

namespace DataProfiler

variable {α : Type} [DecidableEq α]

/-- A Python dict from category values to occurrence counts: a finite key
set plus a value function.  Only `PyDict.get` (the get-or-zero accessor)
is ever read by the profiler code, so `val` outside `keys` is never
observed. -/
structure PyDict (α : Type) where
  keys : Finset α
  val : α → ℕ

/-- Evaluates `d[cat] if cat in d else 0` — the get-or-zero accessor used throughout
the profiler. -/
def PyDict.get (d : PyDict α) (cat : α) : ℕ :=
  if cat ∈ d.keys then d.val cat else 0

/-- Modelled from the spec: `utils.add_nested_dictionaries` (the helper
called by `CategoricalColumn.__add__`; it lives in `utils`, outside this
module).  Spec §4.1: "produces a new mapping containing every key present
in `a` or `b`, with count = count in `a` (0 if absent) + count in `b`
(0 if absent)". -/
def add_nested_dictionaries (d₁ d₂ : PyDict α) : PyDict α where
  keys := d₁.keys ∪ d₂.keys
  val := fun cat => d₁.get cat + d₂.get cat

/-- State of a `CategoricalColumn` profile: `cats` embeds the
`_categories` dict; `sample_size` is the running count owned by the
external base profiler, consumed here read-only. -/
structure CategoricalColumn (α : Type) where
  cats : PyDict α
  sample_size : ℕ

/-- Embeds `_MAXIMUM_UNIQUE_VALUES_TO_CLASSIFY_AS_CATEGORICAL = 10`. -/
def MAXIMUM_UNIQUE_VALUES_TO_CLASSIFY_AS_CATEGORICAL : ℕ := 10

/-- Embeds `_CATEGORICAL_THRESHOLD_DEFAULT = 0.2`. -/
def CATEGORICAL_THRESHOLD_DEFAULT : ℚ := 1/5

/-- The `categories` property: `list(self._categories.keys())`, embedded
as the key set (list order is irrelevant to every use below). -/
def CategoricalColumn.categories (p : CategoricalColumn α) : Finset α :=
  p.cats.keys

/-- The `unique_ratio` property: starts at `1.0`, replaced by
`len(self.categories) / self.sample_size` when `sample_size` is truthy. -/
def CategoricalColumn.unique_ratio (p : CategoricalColumn α) : ℚ :=
  if p.sample_size ≠ 0 then (p.categories.card : ℚ) / (p.sample_size : ℚ)
  else 1

/-- The `is_match` property: true when `unique <= 10`, else true when
`self.sample_size` is truthy and `unique_ratio <= 0.2`, else false. -/
def CategoricalColumn.is_match (p : CategoricalColumn α) : Bool :=
  if p.cats.keys.card ≤ MAXIMUM_UNIQUE_VALUES_TO_CLASSIFY_AS_CATEGORICAL then
    true
  else if p.sample_size ≠ 0 ∧ p.unique_ratio ≤ CATEGORICAL_THRESHOLD_DEFAULT then
    true
  else
    false

/-- Embeds `CategoricalColumn.__add__` on the merged state: the new profile's
`_categories` is `utils.add_nested_dictionaries(self._categories,
other._categories)`; sample-size aggregation (summation) is delegated to
`BaseColumnProfiler._add_helper`, modelled from the spec (§4.5: external
base-profiler merge helper). -/
def CategoricalColumn.add (self other : CategoricalColumn α) :
    CategoricalColumn α where
  cats := add_nested_dictionaries self.cats other.cats
  sample_size := self.sample_size + other.sample_size

/-- The `gini_impurity` property: `None` when `sample_size == 0`, else
the loop `for i in self._categories:
  gini_sum += (c_i/n) * (1 - c_i/n)`. -/
def CategoricalColumn.gini_impurity (p : CategoricalColumn α) : Option ℚ :=
  if p.sample_size = 0 then none
  else
    some (∑ i ∈ p.cats.keys,
      ((p.cats.get i : ℚ) / (p.sample_size : ℚ)) *
        (1 - (p.cats.get i : ℚ) / (p.sample_size : ℚ)))

/-- The `unalikeability` property: `None` when `sample_size == 0`, `0`
when `sample_size == 1`, else
`Σ (n − c_i)·c_i / (n² − n)` accumulated over the category keys. -/
def CategoricalColumn.unalikeability (p : CategoricalColumn α) : Option ℚ :=
  if p.sample_size = 0 then none
  else if p.sample_size = 1 then some 0
  else
    some ((∑ c ∈ p.cats.keys,
        ((p.sample_size : ℚ) - (p.cats.get c : ℚ)) * (p.cats.get c : ℚ)) /
      ((p.sample_size : ℚ) ^ 2 - (p.sample_size : ℚ)))

/-- A chi-squared statistic or p-value cell: a finite rational or the
`np.inf` sentinel. -/
inductive ChiStat where
  | val (q : ℚ)
  | inf
deriving DecidableEq

/-- The `results` dict returned by `_perform_chi_squared_test`; `warned`
records whether a `warnings.warn` was emitted on the taken path. -/
structure ChiSquaredResult where
  chi2_statistic : Option ChiStat
  df : Option ℕ
  p_value : Option ChiStat
  warned : Bool
deriving DecidableEq

/-- Embeds `CategoricalColumn._perform_chi_squared_test`.  Here `backend` stands for
the optional `scipy.stats` import: `some cdf` is a successful import with
`cdf df x` the value of `scipy.stats.chi2(df).cdf(x)`; `none` is an
`ImportError` (warn, return without p-value).  The union of the two key
sets embeds `combined_cats`; order of that list only permutes commutative
sums.  The stray `expected.append([])` iterations in the source write
rows 2 and 3 which are never read, so the computed table is rows 0, 1 as
embedded here. -/
def perform_chi_squared_test (backend : Option (ℕ → ℚ → ℚ))
    (categories1 categories2 : PyDict α) : ChiSquaredResult :=
  let combined_cats := categories1.keys ∪ categories2.keys
  let num_cats := combined_cats.card
  if num_cats < 1 then
    { chi2_statistic := none, df := none, p_value := none, warned := true }
  else
    let df := num_cats - 1
    let row_sum1 := ∑ cat ∈ combined_cats, categories1.get cat
    let row_sum2 := ∑ cat ∈ combined_cats, categories2.get cat
    let total := row_sum1 + row_sum2
    if row_sum1 = 0 ∨ row_sum2 = 0 ∨
        ∃ cat ∈ combined_cats, categories1.get cat + categories2.get cat = 0 then
      { chi2_statistic := some ChiStat.inf, df := some df,
        p_value := some (ChiStat.val 0), warned := false }
    else
      let expected1 : α → ℚ := fun cat =>
        (row_sum1 : ℚ) * ((categories1.get cat + categories2.get cat : ℕ) : ℚ) /
          (total : ℚ)
      let expected2 : α → ℚ := fun cat =>
        (row_sum2 : ℚ) * ((categories1.get cat + categories2.get cat : ℕ) : ℚ) /
          (total : ℚ)
      let chi2 : ℚ :=
        (∑ cat ∈ combined_cats,
          ((categories1.get cat : ℚ) - expected1 cat) ^ 2 / expected1 cat) +
        (∑ cat ∈ combined_cats,
          ((categories2.get cat : ℚ) - expected2 cat) ^ 2 / expected2 cat)
      match backend with
      | none =>
          { chi2_statistic := some (ChiStat.val chi2), df := some df,
            p_value := none, warned := true }
      | some cdf =>
          { chi2_statistic := some (ChiStat.val chi2), df := some df,
            p_value := some (ChiStat.val (1 - cdf df chi2)), warned := false }

/-- Follows the spec's words (§4.4, steps 4–7), independent of the code:
observed 2×k table, `expected[i][j] = row_sum[i] * col_sum[j] /
grand_total`, `statistic = Σ (observed − expected)² / expected` over all
cells. -/
def spec_chi2_statistic (c₁ c₂ : PyDict α) : ℚ :=
  let combined := c₁.keys ∪ c₂.keys
  let obs : Fin 2 → α → ℚ := fun i c =>
    if i = 0 then (c₁.get c : ℚ) else (c₂.get c : ℚ)
  let row : Fin 2 → ℚ := fun i => ∑ c ∈ combined, obs i c
  let col : α → ℚ := fun c => obs 0 c + obs 1 c
  let total : ℚ := row 0 + row 1
  ∑ i : Fin 2, ∑ c ∈ combined,
    (obs i c - row i * col c / total) ^ 2 / (row i * col c / total)

/-- Result of `utils.find_diff_of_strings_and_bools` on the two `is_match`
booleans: unchanged value or a self/other contrast. -/
inductive BoolDiff where
  | unchanged (b : Bool)
  | changed (self other : Bool)
deriving DecidableEq

/-- Modelled from the spec: `utils.find_diff_of_strings_and_bools`
(lives in `utils`, outside this module).  Spec §4.6: "reported as a
boolean/string contrast, e.g. unchanged / self only / other only". -/
def find_diff_of_strings_and_bools (a b : Bool) : BoolDiff :=
  if a = b then BoolDiff.unchanged a else BoolDiff.changed a b

/-- Modelled from the spec: `utils.find_diff_of_numbers` (lives in
`utils`, outside this module).  Spec §4.6: "numeric differences (self −
other, or null if either side is null)". -/
def find_diff_of_numbers (a b : Option ℚ) : Option ℚ :=
  match a, b with
  | some x, some y => some (x - y)
  | _, _ => none

/-- Result of `utils.find_diff_of_lists_and_sets` on the two category key
sets. -/
structure SetDiff (α : Type) where
  shared : Finset α
  self_only : Finset α
  other_only : Finset α

/-- Modelled from the spec: `utils.find_diff_of_lists_and_sets` (lives in
`utils`, outside this module).  Spec §4.6: "set-difference report between
the two category key-sets (added/removed/common)". -/
def find_diff_of_lists_and_sets (a b : Finset α) : SetDiff α where
  shared := a ∩ b
  self_only := a \ b
  other_only := b \ a

/-- Modelled from the spec: `utils.find_diff_of_dicts` (lives in `utils`,
outside this module).  Spec §4.6: "a mapping-level diff between each
profile's categories sorted by descending count"; a dict diff carries the
combined key set with the per-key signed count difference (sorting the
input dicts permutes keys without changing the key/value content). -/
def find_diff_of_dicts (d₁ d₂ : PyDict α) : Finset α × (α → ℤ) :=
  (d₁.keys ∪ d₂.keys, fun cat => (d₁.get cat : ℤ) - (d₂.get cat : ℤ))

/-- The diff report built by `CategoricalColumn.diff`.  Each
categorical-only key of the report dict is an `Option` field: `none`
means the key is absent from the dict (not present with a null value).
The base `super().diff` entries are external to this module and carry no
categorical information, so they are not modelled. -/
structure DiffReport (α : Type) where
  categorical : BoolDiff
  unique_count : Option ℚ
  unique_ratio : Option ℚ
  chi2_test : Option ChiSquaredResult
  categories : Option (SetDiff α)
  gini_impurity : Option (Option ℚ)
  unalikeability : Option (Option ℚ)
  categorical_count : Option (Finset α × (α → ℤ))

/-- Embeds `CategoricalColumn.diff`: always fills `categorical`,
`statistics.unique_count` and `statistics.unique_ratio`; the chi-squared
test and the four categorical-only statistics are filled only under the
single guard `self.is_match and other_profile.is_match`. -/
def CategoricalColumn.diff (self other_profile : CategoricalColumn α)
    (backend : Option (ℕ → ℚ → ℚ)) : DiffReport α :=
  let both := self.is_match && other_profile.is_match
  { categorical :=
      find_diff_of_strings_and_bools self.is_match other_profile.is_match
    unique_count :=
      find_diff_of_numbers (some (self.categories.card : ℚ))
        (some (other_profile.categories.card : ℚ))
    unique_ratio :=
      find_diff_of_numbers (some self.unique_ratio)
        (some other_profile.unique_ratio)
    chi2_test :=
      if both then
        some (perform_chi_squared_test backend self.cats other_profile.cats)
      else none
    categories :=
      if both then
        some (find_diff_of_lists_and_sets self.categories
          other_profile.categories)
      else none
    gini_impurity :=
      if both then
        some (find_diff_of_numbers self.gini_impurity
          other_profile.gini_impurity)
      else none
    unalikeability :=
      if both then
        some (find_diff_of_numbers self.unalikeability
          other_profile.unalikeability)
      else none
    categorical_count :=
      if both then some (find_diff_of_dicts self.cats other_profile.cats)
      else none }

/-- A heap of profile objects addressed by object identity, used to state
the frame properties of `__add__` and `diff` (which profiles a call may
write). -/
def Store (α : Type) := ℕ → CategoricalColumn α

/-- The right operand of `+`: either another `CategoricalColumn` (by
object id) or an object of any other class. -/
inductive Operand (α : Type) where
  | cat (pid : ℕ)
  | other (className : String)

/-- The `TypeError` raised by `__add__` on a mismatched operand class. -/
inductive MergeError where
  | typeError (className : String)
deriving DecidableEq

/-- Embeds `CategoricalColumn.__add__` as a heap operation: the isinstance guard
raises before any write; otherwise a fresh object `fresh` is allocated
and is the only address written — the merged `_categories` comes from
`add_nested_dictionaries` and the summed `sample_size` from the base
helper, reading both inputs. -/
def add_op (store : Store α) (self : ℕ) (operand : Operand α) (fresh : ℕ) :
    Store α × Except MergeError ℕ :=
  match operand with
  | Operand.other cls => (store, Except.error (MergeError.typeError cls))
  | Operand.cat oid =>
      let merged : CategoricalColumn α :=
        { cats := add_nested_dictionaries (store self).cats (store oid).cats
          sample_size := (store self).sample_size + (store oid).sample_size }
      (fun i => if i = fresh then merged else store i, Except.ok fresh)

/-- Embeds `CategoricalColumn.diff` as a heap operation: it only reads the two
profiles (every statement of `diff` and of `_perform_chi_squared_test`
builds fresh lists/dicts), so the heap passes through unchanged. -/
def diff_op (store : Store α) (self other_profile : ℕ)
    (backend : Option (ℕ → ℚ → ℚ)) : Store α × DiffReport α :=
  (store, CategoricalColumn.diff (store self) (store other_profile) backend)

theorem PyDict.get_of_not_mem {d : PyDict α} {x : α} (h : x ∉ d.keys) :
    d.get x = 0 := by
  simp [PyDict.get, h]

theorem PyDict.get_merge (d₁ d₂ : PyDict α) (x : α) :
    (add_nested_dictionaries d₁ d₂).get x = d₁.get x + d₂.get x := by
  by_cases h : x ∈ d₁.keys ∪ d₂.keys
  · simp only [add_nested_dictionaries, PyDict.get]
    simp [h]
  · rw [Finset.mem_union, not_or] at h
    simp only [add_nested_dictionaries, PyDict.get]
    simp [h.1, h.2]

omit [DecidableEq α] in
theorem PyDict.eq_of_parts {d₁ d₂ : PyDict α} (hk : d₁.keys = d₂.keys)
    (hv : d₁.val = d₂.val) : d₁ = d₂ := by
  cases d₁; cases d₂; simp_all

/-- C2: the counter merge called by `__add__` produces the key-set union
with pointwise-summed counts (0 for absent keys), is commutative and
associative, and is exactly what `__add__` installs as the merged
profile's `_categories`. -/
theorem claim_C2 (a b c : PyDict α) :
    (add_nested_dictionaries a b).keys = a.keys ∪ b.keys ∧
    (∀ x, (add_nested_dictionaries a b).get x = a.get x + b.get x) ∧
    add_nested_dictionaries a b = add_nested_dictionaries b a ∧
    add_nested_dictionaries (add_nested_dictionaries a b) c =
      add_nested_dictionaries a (add_nested_dictionaries b c) ∧
    ∀ p q : CategoricalColumn α,
      (p.add q).cats = add_nested_dictionaries p.cats q.cats := by
  refine ⟨rfl, fun x => PyDict.get_merge a b x, ?_, ?_, fun p q => rfl⟩
  · refine PyDict.eq_of_parts (Finset.union_comm _ _) ?_
    funext x
    exact Nat.add_comm _ _
  · refine PyDict.eq_of_parts ?_ ?_
    · show (a.keys ∪ b.keys) ∪ c.keys = a.keys ∪ (b.keys ∪ c.keys)
      exact Finset.union_assoc _ _ _
    · funext x
      show (add_nested_dictionaries a b).get x + c.get x =
        a.get x + (add_nested_dictionaries b c).get x
      rw [PyDict.get_merge, PyDict.get_merge]
      omega

omit [DecidableEq α] in
/-- C1: `is_match` is true whenever the distinct-key count is ≤ 10
(regardless of `sample_size`); when the count exceeds 10 it is true
exactly when `sample_size > 0` and `unique / sample_size ≤ 0.2`; in
particular `sample_size == 0` with more than 10 keys yields false. -/
theorem claim_C1 (p : CategoricalColumn α) :
    (p.cats.keys.card ≤ 10 → p.is_match = true) ∧
    (10 < p.cats.keys.card →
      (p.is_match = true ↔
        0 < p.sample_size ∧
          (p.cats.keys.card : ℚ) / (p.sample_size : ℚ) ≤ 1/5)) ∧
    (10 < p.cats.keys.card → p.sample_size = 0 → p.is_match = false) := by
  unfold CategoricalColumn.is_match CategoricalColumn.unique_ratio
    CategoricalColumn.categories MAXIMUM_UNIQUE_VALUES_TO_CLASSIFY_AS_CATEGORICAL
    CATEGORICAL_THRESHOLD_DEFAULT
  refine ⟨fun h => by simp [h], fun h => ?_, fun h h0 => ?_⟩
  · rw [if_neg (by omega)]
    simp only [one_div]
    by_cases hn : p.sample_size = 0
    · simp [hn]
    · by_cases hr : (p.cats.keys.card : ℚ) / (p.sample_size : ℚ) ≤ (5:ℚ)⁻¹
      · simp [hn, hr, Nat.pos_of_ne_zero hn]
      · simp [hn, hr]
  · simp [h0, Nat.not_le.mpr h]

/-- C9: `__add__` with an operand that is not a `CategoricalColumn`
raises a `TypeError` naming the operand's class, with the heap unchanged
and no merged profile produced. -/
theorem claim_C9 (store : Store α) (self fresh : ℕ) (cls : String) :
    add_op store self (Operand.other cls) fresh =
      (store, Except.error (MergeError.typeError cls)) := rfl

omit [DecidableEq α] in
/-- C10: `unique_ratio` is exactly 1.0 whenever `sample_size == 0`, for
any key count; the division only happens when `sample_size` is nonzero. -/
theorem claim_C10 (p : CategoricalColumn α) (h : p.sample_size = 0) :
    p.unique_ratio = 1 := by
  simp [CategoricalColumn.unique_ratio, h]

theorem claim_C10_witness :
    (⟨⟨Finset.range 12, fun _ => 1⟩, 0⟩ : CategoricalColumn ℕ).unique_ratio
      = 1 :=
  claim_C10 _ rfl


theorem claim_C1_witness :
    (⟨⟨Finset.range 3, fun _ => 5⟩, 0⟩ : CategoricalColumn ℕ).is_match
        = true ∧
      (⟨⟨Finset.range 12, fun _ => 1⟩, 0⟩ : CategoricalColumn ℕ).is_match
        = false :=
  ⟨(claim_C1 _).1 (by decide), (claim_C1 _).2.2 (by decide) rfl⟩

/-- C8: `__add__` on two profiles writes only the freshly allocated
profile: both inputs' states (in particular their `_categories`) are
unchanged, the result is the fresh object holding the merged state; and
`diff` (including the chi-squared test it may invoke) leaves the heap
untouched. -/
theorem claim_C8 (store : Store α) (s o f : ℕ)
    (backend : Option (ℕ → ℚ → ℚ)) (hs : s ≠ f) (ho : o ≠ f) :
    (add_op store s (Operand.cat o) f).1 s = store s ∧
    (add_op store s (Operand.cat o) f).1 o = store o ∧
    (∀ i, i ≠ f → (add_op store s (Operand.cat o) f).1 i = store i) ∧
    (add_op store s (Operand.cat o) f).2 = Except.ok f ∧
    (add_op store s (Operand.cat o) f).1 f = (store s).add (store o) ∧
    (diff_op store s o backend).1 = store := by
  refine ⟨if_neg hs, if_neg ho, fun i hi => if_neg hi, rfl, if_pos rfl, rfl⟩

theorem claim_C8_witness :
    (add_op (fun _ => (⟨⟨∅, fun _ => 0⟩, 0⟩ : CategoricalColumn ℕ)) 0
        (Operand.cat 1) 2).1 0 = ⟨⟨∅, fun _ => 0⟩, 0⟩ :=
  (claim_C8 _ 0 1 2 none (by decide) (by decide)).1

/-- C7: the categorical-only diff entries (`chi2-test`,
`statistics.categories`, `statistics.gini_impurity`,
`statistics.unalikeability`, `statistics.categorical_count`) are present
— with the chi-squared test run on the two raw counters — exactly when
both profiles are classified categorical; otherwise all five keys are
absent (`none`), and the homogeneity test is not invoked. -/
theorem claim_C7 (backend : Option (ℕ → ℚ → ℚ))
    (p q : CategoricalColumn α) :
    ((p.is_match && q.is_match) = true →
      (p.diff q backend).chi2_test =
          some (perform_chi_squared_test backend p.cats q.cats) ∧
        (p.diff q backend).categories =
          some (find_diff_of_lists_and_sets p.categories q.categories) ∧
        (p.diff q backend).gini_impurity =
          some (find_diff_of_numbers p.gini_impurity q.gini_impurity) ∧
        (p.diff q backend).unalikeability =
          some (find_diff_of_numbers p.unalikeability q.unalikeability) ∧
        (p.diff q backend).categorical_count =
          some (find_diff_of_dicts p.cats q.cats)) ∧
    ((p.is_match && q.is_match) = false →
      (p.diff q backend).chi2_test = none ∧
        (p.diff q backend).categories = none ∧
        (p.diff q backend).gini_impurity = none ∧
        (p.diff q backend).unalikeability = none ∧
        (p.diff q backend).categorical_count = none) := by
  unfold CategoricalColumn.diff
  constructor
  · intro h
    simp [h]
  · intro h
    simp [h]

theorem claim_C7_witness :
    ((⟨⟨{0}, fun _ => 5⟩, 5⟩ : CategoricalColumn ℕ).diff
        ⟨⟨{0}, fun _ => 5⟩, 5⟩ none).chi2_test =
      some (perform_chi_squared_test none
        (⟨⟨{0}, fun _ => 5⟩, 5⟩ : CategoricalColumn ℕ).cats
        (⟨⟨{0}, fun _ => 5⟩, 5⟩ : CategoricalColumn ℕ).cats) ∧
    ((⟨⟨{0}, fun _ => 5⟩, 5⟩ : CategoricalColumn ℕ).diff
        ⟨⟨Finset.range 12, fun _ => 1⟩, 0⟩ none).chi2_test = none :=
  ⟨((claim_C7 none _ _).1 (by decide)).1,
   ((claim_C7 none _ _).2 (by decide)).1⟩

/-- C5: `gini_impurity` is null when `sample_size == 0` and otherwise
`Σ pᵢ·(1 − pᵢ)` with `pᵢ = countᵢ / sample_size`; consequently (counts
summing to `sample_size`) a single category gives 0 and a uniform
distribution over `k` categories gives `(k−1)/k`. -/
theorem claim_C5 (p : CategoricalColumn α) :
    (p.sample_size = 0 → p.gini_impurity = none) ∧
    (p.sample_size ≠ 0 →
      p.gini_impurity = some (∑ i ∈ p.cats.keys,
        ((p.cats.get i : ℚ) / (p.sample_size : ℚ)) *
          (1 - (p.cats.get i : ℚ) / (p.sample_size : ℚ)))) ∧
    (∀ k, p.cats.keys = {k} → p.cats.get k = p.sample_size →
      p.sample_size ≠ 0 → p.gini_impurity = some 0) ∧
    (∀ m, (∀ i ∈ p.cats.keys, p.cats.get i = m) →
      p.sample_size = p.cats.keys.card * m → p.sample_size ≠ 0 →
      p.gini_impurity =
        some (((p.cats.keys.card : ℚ) - 1) / (p.cats.keys.card : ℚ))) := by
  refine ⟨fun h => by simp [CategoricalColumn.gini_impurity, h],
    fun h => by simp [CategoricalColumn.gini_impurity, h], ?_, ?_⟩
  · intro k hk hget hn
    have hq : (p.sample_size : ℚ) ≠ 0 := Nat.cast_ne_zero.mpr hn
    rw [CategoricalColumn.gini_impurity, if_neg hn, hk,
      Finset.sum_singleton, hget, div_self hq]
    norm_num
  · intro m hm hn hnz
    have hk0 : p.cats.keys.card ≠ 0 :=
      fun h => hnz (by rw [hn, h, Nat.zero_mul])
    have hm0 : m ≠ 0 := fun h => hnz (by rw [hn, h, Nat.mul_zero])
    have hkq : (p.cats.keys.card : ℚ) ≠ 0 := Nat.cast_ne_zero.mpr hk0
    have hmq : (m : ℚ) ≠ 0 := Nat.cast_ne_zero.mpr hm0
    have hn' : (p.sample_size : ℚ) = (p.cats.keys.card : ℚ) * (m : ℚ) := by
      rw [hn]; push_cast; ring
    rw [CategoricalColumn.gini_impurity, if_neg hnz]
    congr 1
    rw [Finset.sum_congr rfl fun i hi => by rw [hm i hi]]
    rw [Finset.sum_const, nsmul_eq_mul, hn']
    field_simp
    ring

theorem claim_C5_witness :
    (⟨⟨{7}, fun _ => 9⟩, 9⟩ : CategoricalColumn ℕ).gini_impurity = some 0 ∧
    (⟨⟨{0, 1, 2, 3}, fun _ => 5⟩, 20⟩ : CategoricalColumn ℕ).gini_impurity =
      some (((({0, 1, 2, 3} : Finset ℕ).card : ℚ) - 1) /
        (({0, 1, 2, 3} : Finset ℕ).card : ℚ)) :=
  ⟨(claim_C5 _).2.2.1 7 rfl (by decide) (by decide),
   (claim_C5 _).2.2.2 5 (by decide) (by decide) (by decide)⟩

omit [DecidableEq α] in
theorem sq_cast_le_of_sum {s : Finset α} {g : α → ℕ} :
    (∑ c ∈ s, (g c : ℚ)) ≤ ∑ c ∈ s, (g c : ℚ) ^ 2 := by
  refine Finset.sum_le_sum fun c _ => ?_
  have h : g c ≤ g c ^ 2 := by nlinarith [Nat.zero_le (g c)]
  exact_mod_cast h

/-- C6: `unalikeability` is null when `sample_size == 0`, exactly 0 when
`sample_size == 1`, otherwise `Σ (n − cᵢ)·cᵢ / (n² − n)`; when the counts
sum to `n` the value lies in `[0, 1]`, and a two-category 50/50 split
with even `n` gives `n²/4 / (n² − n) · 2`. -/
theorem claim_C6 (p : CategoricalColumn α) :
    (p.sample_size = 0 → p.unalikeability = none) ∧
    (p.sample_size = 1 → p.unalikeability = some 0) ∧
    (2 ≤ p.sample_size → (∑ c ∈ p.cats.keys, p.cats.get c) = p.sample_size →
      ∃ u, p.unalikeability = some u ∧ 0 ≤ u ∧ u ≤ 1) ∧
    (∀ a b, a ≠ b → p.cats.keys = {a, b} → 2 ≤ p.sample_size →
      2 * p.cats.get a = p.sample_size → 2 * p.cats.get b = p.sample_size →
      p.unalikeability =
        some ((p.sample_size : ℚ) ^ 2 / 4 /
          ((p.sample_size : ℚ) ^ 2 - (p.sample_size : ℚ)) * 2)) := by
  refine ⟨fun h => by simp [CategoricalColumn.unalikeability, h],
    fun h => by simp [CategoricalColumn.unalikeability, h], ?_, ?_⟩
  · intro h2 hsum
    have hn0 : p.sample_size ≠ 0 := by omega
    have hn1 : p.sample_size ≠ 1 := by omega
    have hnq : (1 : ℚ) ≤ (p.sample_size : ℚ) - 1 := by
      have : (2 : ℚ) ≤ (p.sample_size : ℚ) := by exact_mod_cast h2
      linarith
    have hD : (0 : ℚ) < (p.sample_size : ℚ) ^ 2 - (p.sample_size : ℚ) := by
      have hq : (2 : ℚ) ≤ (p.sample_size : ℚ) := by exact_mod_cast h2
      nlinarith
    have hsumq : (∑ c ∈ p.cats.keys, (p.cats.get c : ℚ)) =
        (p.sample_size : ℚ) := by exact_mod_cast congrArg (Nat.cast (R := ℚ)) hsum
    have hle : ∀ c ∈ p.cats.keys, (p.cats.get c : ℚ) ≤ (p.sample_size : ℚ) := by
      intro c hc
      have h := Finset.single_le_sum
        (f := fun c => p.cats.get c) (fun i _ => Nat.zero_le _) hc
      rw [hsum] at h
      exact_mod_cast h
    refine ⟨_, by rw [CategoricalColumn.unalikeability, if_neg hn0, if_neg hn1],
      ?_, ?_⟩
    · refine div_nonneg (Finset.sum_nonneg fun c hc => ?_) (le_of_lt hD)
      exact mul_nonneg (sub_nonneg.mpr (hle c hc)) (Nat.cast_nonneg _)
    · rw [div_le_one hD]
      have hexp : (∑ c ∈ p.cats.keys,
          ((p.sample_size : ℚ) - (p.cats.get c : ℚ)) * (p.cats.get c : ℚ)) =
          (p.sample_size : ℚ) ^ 2 - ∑ c ∈ p.cats.keys, (p.cats.get c : ℚ) ^ 2 := by
        rw [Finset.sum_congr rfl
          (g := fun c => (p.sample_size : ℚ) * (p.cats.get c : ℚ) -
            (p.cats.get c : ℚ) ^ 2)
          (fun c _ => by ring), Finset.sum_sub_distrib, ← Finset.mul_sum, hsumq]
        ring
      rw [hexp]
      have := sq_cast_le_of_sum (s := p.cats.keys) (g := fun c => p.cats.get c)
      rw [hsumq] at this
      linarith
  · intro a b hab hk h2 ha hb
    have hn0 : p.sample_size ≠ 0 := by omega
    have hn1 : p.sample_size ≠ 1 := by omega
    have haq : (p.cats.get a : ℚ) = (p.sample_size : ℚ) / 2 := by
      have : ((2 * p.cats.get a : ℕ) : ℚ) = (p.sample_size : ℚ) := by
        exact_mod_cast congrArg (Nat.cast (R := ℚ)) ha
      push_cast at this
      linarith
    have hbq : (p.cats.get b : ℚ) = (p.sample_size : ℚ) / 2 := by
      have : ((2 * p.cats.get b : ℕ) : ℚ) = (p.sample_size : ℚ) := by
        exact_mod_cast congrArg (Nat.cast (R := ℚ)) hb
      push_cast at this
      linarith
    rw [CategoricalColumn.unalikeability, if_neg hn0, if_neg hn1, hk,
      Finset.sum_pair hab, haq, hbq]
    have hD : ((p.sample_size : ℚ) ^ 2 - (p.sample_size : ℚ)) ≠ 0 := by
      have hq : (2 : ℚ) ≤ (p.sample_size : ℚ) := by exact_mod_cast h2
      nlinarith
    congr 1
    field_simp
    ring

theorem claim_C6_witness :
    (⟨⟨{0, 1}, fun _ => 3⟩, 6⟩ : CategoricalColumn ℕ).unalikeability =
      some ((6 : ℚ) ^ 2 / 4 / ((6 : ℚ) ^ 2 - (6 : ℚ)) * 2) :=
  (claim_C6 _).2.2.2 0 1 (by decide) (by decide) (by decide) (by decide)
    (by decide)

/-- C4: with a non-empty combined category set, a zero row sum or zero
column sum in the 2×k observed table makes the test return
`statistic = +inf`, `p-value = 0` with `df = k − 1` still populated (and
no exception — the function is total); with an empty combined set it
warns and returns all-null results. -/
theorem claim_C4 (backend : Option (ℕ → ℚ → ℚ)) (c₁ c₂ : PyDict α) :
    ((c₁.keys ∪ c₂.keys).Nonempty →
      ((∑ cat ∈ c₁.keys ∪ c₂.keys, c₁.get cat) = 0 ∨
        (∑ cat ∈ c₁.keys ∪ c₂.keys, c₂.get cat) = 0 ∨
        ∃ cat ∈ c₁.keys ∪ c₂.keys, c₁.get cat + c₂.get cat = 0) →
      perform_chi_squared_test backend c₁ c₂ =
        { chi2_statistic := some ChiStat.inf,
          df := some ((c₁.keys ∪ c₂.keys).card - 1),
          p_value := some (ChiStat.val 0), warned := false }) ∧
    (c₁.keys ∪ c₂.keys = ∅ →
      perform_chi_squared_test backend c₁ c₂ =
        { chi2_statistic := none, df := none, p_value := none,
          warned := true }) := by
  constructor
  · intro hne hdeg
    have hcard : ¬((c₁.keys ∪ c₂.keys).card < 1) := by
      have := Finset.card_pos.mpr hne
      omega
    simp only [perform_chi_squared_test]
    rw [if_neg hcard, if_pos hdeg]
  · intro h
    have hcard : (c₁.keys ∪ c₂.keys).card < 1 := by
      rw [h]
      simp
    simp only [perform_chi_squared_test]
    rw [if_pos hcard]

theorem claim_C4_witness :
    (perform_chi_squared_test (α := ℕ) none ⟨{0}, fun _ => 5⟩
        ⟨∅, fun _ => 0⟩ =
      { chi2_statistic := some ChiStat.inf,
        df := some ((({0} : Finset ℕ) ∪ (∅ : Finset ℕ)).card - 1),
        p_value := some (ChiStat.val 0), warned := false }) ∧
    (perform_chi_squared_test (α := ℕ) none ⟨∅, fun _ => 0⟩
        ⟨∅, fun _ => 0⟩ =
      { chi2_statistic := none, df := none, p_value := none,
        warned := true }) :=
  ⟨(claim_C4 none _ _).1 (by decide) (by decide),
   (claim_C4 none _ _).2 (by decide)⟩

theorem chi2_cell_zero (R g : ℚ) (hR : R ≠ 0) :
    (g - R * (g + g) / (R + R)) ^ 2 / (R * (g + g) / (R + R)) = 0 := by
  have h2R : R + R ≠ 0 := fun h => hR (by linarith)
  have h : R * (g + g) / (R + R) = g := by
    rw [div_eq_iff h2R]
    ring
  rw [h, sub_self]
  simp

/-- C3: when the combined category set is non-empty and the 2×k observed
table has no zero row or column sum, the test returns
`df = k − 1` and the statistic `Σ (observed − expected)² / expected` with
`expected[i][j] = row_sum[i] · col_sum[j] / grand_total`; for two
counters with identical (positive) counts the statistic is 0. -/
theorem claim_C3 (backend : Option (ℕ → ℚ → ℚ)) (c₁ c₂ : PyDict α)
    (hne : (c₁.keys ∪ c₂.keys).Nonempty)
    (h1 : (∑ cat ∈ c₁.keys ∪ c₂.keys, c₁.get cat) ≠ 0)
    (h2 : (∑ cat ∈ c₁.keys ∪ c₂.keys, c₂.get cat) ≠ 0)
    (hcol : ∀ cat ∈ c₁.keys ∪ c₂.keys, c₁.get cat + c₂.get cat ≠ 0) :
    (perform_chi_squared_test backend c₁ c₂).df =
      some ((c₁.keys ∪ c₂.keys).card - 1) ∧
    (perform_chi_squared_test backend c₁ c₂).chi2_statistic =
      some (ChiStat.val (spec_chi2_statistic c₁ c₂)) ∧
    ((∀ x, c₁.get x = c₂.get x) →
      (perform_chi_squared_test backend c₁ c₂).chi2_statistic =
        some (ChiStat.val 0)) := by
  have hcard : ¬((c₁.keys ∪ c₂.keys).card < 1) := by
    have := Finset.card_pos.mpr hne
    omega
  have hguard : ¬((∑ cat ∈ c₁.keys ∪ c₂.keys, c₁.get cat) = 0 ∨
      (∑ cat ∈ c₁.keys ∪ c₂.keys, c₂.get cat) = 0 ∨
      ∃ cat ∈ c₁.keys ∪ c₂.keys, c₁.get cat + c₂.get cat = 0) := by
    push_neg
    exact ⟨h1, h2, hcol⟩
  have hstat : (perform_chi_squared_test backend c₁ c₂).chi2_statistic =
      some (ChiStat.val (spec_chi2_statistic c₁ c₂)) := by
    simp only [perform_chi_squared_test]
    rw [if_neg hcard, if_neg hguard]
    have hbridge : (∑ cat ∈ c₁.keys ∪ c₂.keys,
          ((c₁.get cat : ℚ) -
              ((∑ x ∈ c₁.keys ∪ c₂.keys, c₁.get x : ℕ) : ℚ) *
                ((c₁.get cat + c₂.get cat : ℕ) : ℚ) /
                (((∑ x ∈ c₁.keys ∪ c₂.keys, c₁.get x) +
                  (∑ x ∈ c₁.keys ∪ c₂.keys, c₂.get x) : ℕ) : ℚ)) ^ 2 /
            (((∑ x ∈ c₁.keys ∪ c₂.keys, c₁.get x : ℕ) : ℚ) *
              ((c₁.get cat + c₂.get cat : ℕ) : ℚ) /
              (((∑ x ∈ c₁.keys ∪ c₂.keys, c₁.get x) +
                (∑ x ∈ c₁.keys ∪ c₂.keys, c₂.get x) : ℕ) : ℚ))) +
        (∑ cat ∈ c₁.keys ∪ c₂.keys,
          ((c₂.get cat : ℚ) -
              ((∑ x ∈ c₁.keys ∪ c₂.keys, c₂.get x : ℕ) : ℚ) *
                ((c₁.get cat + c₂.get cat : ℕ) : ℚ) /
                (((∑ x ∈ c₁.keys ∪ c₂.keys, c₁.get x) +
                  (∑ x ∈ c₁.keys ∪ c₂.keys, c₂.get x) : ℕ) : ℚ)) ^ 2 /
            (((∑ x ∈ c₁.keys ∪ c₂.keys, c₂.get x : ℕ) : ℚ) *
              ((c₁.get cat + c₂.get cat : ℕ) : ℚ) /
              (((∑ x ∈ c₁.keys ∪ c₂.keys, c₁.get x) +
                (∑ x ∈ c₁.keys ∪ c₂.keys, c₂.get x) : ℕ) : ℚ))) =
        spec_chi2_statistic c₁ c₂ := by
      simp only [spec_chi2_statistic, Fin.sum_univ_two]
      push_cast
      rfl
    cases backend with
    | none => simpa using hbridge
    | some cdf => simpa using hbridge
  refine ⟨?_, hstat, ?_⟩
  · simp only [perform_chi_squared_test]
    rw [if_neg hcard, if_neg hguard]
    cases backend <;> rfl
  · intro heq
    have hzero : spec_chi2_statistic c₁ c₂ = 0 := by
      have hR : (∑ c ∈ c₁.keys ∪ c₂.keys, (c₂.get c : ℚ)) ≠ 0 := by
        rw [← Nat.cast_sum]
        exact_mod_cast h2
      simp only [spec_chi2_statistic, Fin.sum_univ_two]
      norm_num
      simp only [heq]
      rw [Finset.sum_eq_zero fun c hc => chi2_cell_zero _ _ hR]
      simp
    rw [hstat, hzero]

theorem claim_C3_witness :
    (perform_chi_squared_test (α := ℕ) none ⟨{0, 1}, fun _ => 10⟩
        ⟨{0, 1}, fun _ => 10⟩).df =
      some ((({0, 1} : Finset ℕ) ∪ ({0, 1} : Finset ℕ)).card - 1) ∧
    (perform_chi_squared_test (α := ℕ) none ⟨{0, 1}, fun _ => 10⟩
        ⟨{0, 1}, fun _ => 10⟩).chi2_statistic = some (ChiStat.val 0) :=
  ⟨(claim_C3 none _ _ (by decide) (by decide) (by decide) (by decide)).1,
   (claim_C3 none _ _ (by decide) (by decide) (by decide) (by decide)).2.2
     fun x => rfl⟩

theorem claim_C2_witness :
    (add_nested_dictionaries (⟨{0}, fun _ => 1⟩ : PyDict ℕ)
        ⟨{1}, fun _ => 2⟩).keys = ({0} : Finset ℕ) ∪ ({1} : Finset ℕ) :=
  (claim_C2 _ _ (⟨∅, fun _ => 0⟩ : PyDict ℕ)).1

end DataProfiler
